import Mathlib

/-!
# Equity Valuator Engine — verification of the valuation formulas

Shallow embedding of the pure valuation functions of the repository
(`DCF_Model.py`, `Comps_Model.py`, `Models.py`) over exact rational
arithmetic.  Python's numeric values are modelled by `ℚ`; a Python call
that can raise (`ZeroDivisionError` on a zero divisor, `IndexError` on
`[-1]` of an empty list) is modelled by `Option`, with `none` for the
raising execution.
-/

namespace EquityValuator

/-- Python float division `a / b`: raises `ZeroDivisionError` when the
divisor is zero (modelled as `none`), otherwise returns the quotient. -/
def pydiv (a b : ℚ) : Option ℚ :=
  if b = 0 then none else some (a / b)

/-- Embeds `DCF_Model.calculate_fcf(ebit, tax_rate, da, capex, wc)`:
`nopat = ebit * (1 - tax_rate); return nopat + da - capex - wc`. -/
def calculate_fcf (ebit tax_rate da capex wc : ℚ) : ℚ :=
  let nopat := ebit * (1 - tax_rate)
  nopat + da - capex - wc

/-- Embeds `DCF_Model.project_fcf(initial_fcf, growth_rate, years)`:
`[initial_fcf * ((1 + growth_rate) ** i) for i in range(1, years + 1)]`. -/
def project_fcf (initial_fcf growth_rate : ℚ) (years : ℕ) : List ℚ :=
  (List.range' 1 years).map (fun i => initial_fcf * (1 + growth_rate) ^ i)

/-- Embeds `DCF_Model.calculate_terminal_value(last_fcf, perpetual_growth_rate, wacc)`:
`last_fcf * (1 + perpetual_growth_rate) / (wacc - perpetual_growth_rate)`;
the division raises exactly when `wacc - perpetual_growth_rate == 0`. -/
def calculate_terminal_value (last_fcf perpetual_growth_rate wacc : ℚ) : Option ℚ :=
  pydiv (last_fcf * (1 + perpetual_growth_rate)) (wacc - perpetual_growth_rate)

/-- Embeds `numpy_financial.npv`, the external library call made by
`discount_cash_flows`: by its documented formula it computes
`(values / (1 + rate) ** np.arange(0, len(values))).sum()`, i.e. the first
element of `values` is discounted at period 0.  `npv_from rate i vs` is the
sum starting from exponent `i`. -/
def npv_from (rate : ℚ) : ℕ → List ℚ → ℚ
  | _, [] => 0
  | i, v :: vs => v / (1 + rate) ^ i + npv_from rate (i + 1) vs

/-- Embeds `DCF_Model.discount_cash_flows(cash_flows, wacc)`:
`return npf.npv(wacc, cash_flows)`. -/
def discount_cash_flows (cash_flows : List ℚ) (wacc : ℚ) : ℚ :=
  npv_from wacc 0 cash_flows

/-- The list comprehension inside `calculate_dcf`:
`[fcf / ((1 + wacc) ** (i + 1)) for i, fcf in enumerate(fcf_projections)]`,
with `i` starting at the given index; Python raises on the first zero
divisor, modelled as `none`. -/
def discount_projected (wacc : ℚ) : ℕ → List ℚ → Option (List ℚ)
  | _, [] => some []
  | i, f :: rest =>
    (pydiv f ((1 + wacc) ^ (i + 1))).bind fun d =>
      (discount_projected wacc (i + 1) rest).map (fun ds => d :: ds)

/-- Embeds `DCF_Model.calculate_dcf(ebit, tax_rate, da, capex, wc, growth_rate,
projection_years, perpetual_growth_rate, wacc)`.  Mirrors the source:
base FCF, projection, `fcf_projections[-1]` (raises `IndexError` on an
empty projection, modelled as `none`), terminal value, the discounting
comprehension, terminal discounting at `projection_years + 1`, and the
returned triple `(total_value, fcf_projections, terminal_value)`. -/
def calculate_dcf (ebit tax_rate da capex wc growth_rate : ℚ) (projection_years : ℕ)
    (perpetual_growth_rate wacc : ℚ) : Option (ℚ × List ℚ × ℚ) :=
  let base_fcf := calculate_fcf ebit tax_rate da capex wc
  let fcf_projections := project_fcf base_fcf growth_rate projection_years
  match fcf_projections.getLast? with
  | none => none
  | some last =>
    match calculate_terminal_value last perpetual_growth_rate wacc with
    | none => none
    | some terminal_value =>
      match discount_projected wacc 0 fcf_projections with
      | none => none
      | some discounted_fcf =>
        match pydiv terminal_value ((1 + wacc) ^ (projection_years + 1)) with
        | none => none
        | some discounted_terminal =>
          some (discounted_fcf.sum + discounted_terminal, fcf_projections, terminal_value)

/-- Written from the spec's words (§4.1 `calculate_dcf`): "composes the
above — base FCF → n-year projection → terminal value off the final year →
discount each projected year and the terminal value at year n+1 → sum",
with `calculate_fcf` as "fcf = ebit·(1−tax_rate) + da − capex − wc",
the projection as "[fcf0·(1+g)^1 … fcf0·(1+g)^n]", the terminal value as
"fcf_n·(1+g_perp)/(wacc−g_perp)", projected year `i` discounted by
`(1+wacc)^i` and the terminal value by `(1+wacc)^(n+1)`.  Division is
partial exactly where real division is undefined. -/
def dcf_spec (ebit tax_rate da capex wc g : ℚ) (n : ℕ) (g_perp wacc : ℚ) :
    Option (ℚ × List ℚ × ℚ) :=
  let fcf0 := ebit * (1 - tax_rate) + da - capex - wc
  let proj := (List.range n).map (fun i => fcf0 * (1 + g) ^ (i + 1))
  match proj.getLast? with
  | none => none
  | some fcf_n =>
    match pydiv (fcf_n * (1 + g_perp)) (wacc - g_perp) with
    | none => none
    | some tv =>
      match (proj.zip (List.range' 1 n)).mapM (fun p => pydiv p.1 ((1 + wacc) ^ p.2)) with
      | none => none
      | some pvs =>
        match pydiv tv ((1 + wacc) ^ (n + 1)) with
        | none => none
        | some tvd => some (pvs.sum + tvd, proj, tv)

/-- A peer in `Comps_Model.py` is a Python dict mapping metric names to
multiples; a value may be absent or `None`.  Modelled as an association
list with optional values; `peer.get(metric)` is `peer_get`. -/
def Peer : Type := List (String × Option ℚ)

/-- Embeds `peer.get(metric)`: first binding of the key, `none` when the key is
absent or its value is `None`. -/
def peer_get (peer : Peer) (metric : String) : Option ℚ :=
  (List.lookup metric peer).join

/-- Embeds `Comps_Model.compute_median_multiple(peers, metric)`: extracts the
non-null values for the metric, returns `None` when none remain, otherwise
sorts them (`multiples.sort()`, ascending) and returns the middle element
for an odd count, the average of the two middle elements for an even
count. -/
def compute_median_multiple (peers : List Peer) (metric : String) : Option ℚ :=
  let multiples := peers.filterMap (fun peer => peer_get peer metric)
  if multiples = [] then none
  else
    let sorted := multiples.insertionSort (· ≤ ·)
    let n := sorted.length
    let mid := n / 2
    if n % 2 = 0 then some ((sorted.getD (mid - 1) 0 + sorted.getD mid 0) / 2)
    else some (sorted.getD mid 0)

/-- One row of the LBO debt schedule built in `Models.run_lbo_model`. -/
structure DebtRecord where
  year : ℕ
  interest_expense : ℚ
  principal_payment : ℚ
  remaining_debt : ℚ

/-- The repayment loop of `Models.run_lbo_model`
(`for year in range(1, years + 1)`), started at `year` with `steps`
iterations left: each year accrues `interest_expense = outstanding * rate`,
subtracts the constant `annual` principal payment, and appends a record
whose `remaining_debt` is `max(outstanding_debt, 0)`.  Returns the schedule
together with the final (signed) `outstanding_debt`. -/
def lbo_debt_schedule (outstanding rate annual : ℚ) (year steps : ℕ) :
    List DebtRecord × ℚ :=
  match steps with
  | 0 => ([], outstanding)
  | steps' + 1 =>
    let interest_expense := outstanding * rate
    let new_outstanding := outstanding - annual
    let rest := lbo_debt_schedule new_outstanding rate annual (year + 1) steps'
    (⟨year, interest_expense, annual, max new_outstanding 0⟩ :: rest.1, rest.2)

/-- Embeds `Models.run_lbo_model(purchase_price, debt_ratio, initial_ebitda,
ebitda_growth_rate, exit_multiple, years, interest_rate)`.  The external
root-finder `npf.irr` is a deterministic function of the cash-flow list
only, so it is passed in as the parameter `irr`.  With `years = 0` the
source raises `ZeroDivisionError` at `initial_debt / years` (modelled as
`none`).  Returns `(equity_cash_flows, irr, exit_equity_value)`. -/
def run_lbo_model (irr : List ℚ → ℚ) (purchase_price debt_ratio initial_ebitda
    ebitda_growth_rate exit_multiple : ℚ) (years : ℕ) (interest_rate : ℚ) :
    Option (List ℚ × ℚ × ℚ) :=
  let equity_investment := purchase_price * (1 - debt_ratio)
  let initial_debt := purchase_price * debt_ratio
  if years = 0 then none
  else
    let annual_principal_payment := initial_debt / (years : ℚ)
    let sched := lbo_debt_schedule initial_debt interest_rate annual_principal_payment 1 years
    let outstanding_debt := sched.2
    let final_ebitda := initial_ebitda * (1 + ebitda_growth_rate) ^ years
    let exit_enterprise_value := exit_multiple * final_ebitda
    let exit_equity_value := exit_enterprise_value - max outstanding_debt 0
    let equity_cash_flows := -equity_investment :: (List.replicate (years - 1) 0 ++ [exit_equity_value])
    some (equity_cash_flows, irr equity_cash_flows, exit_equity_value)

example : compute_median_multiple
    [[("EV", some 18)], [("EV", some 20)], [("EV", some 19)], [("EV", some 22)], [("EV", some 16)]]
    "EV" = some 19 := by
  simp [compute_median_multiple, peer_get, List.lookup, List.insertionSort, List.orderedInsert]
  norm_num

example : compute_median_multiple [[("EV", some 3)], [("EV", none)], [("P", some 7)], [("EV", some 1)]]
    "EV" = some 2 := by
  simp [compute_median_multiple, peer_get, List.lookup, List.insertionSort, List.orderedInsert]
  norm_num

example : compute_median_multiple [[("EV", none)]] "EV" = none := by
  simp [compute_median_multiple, peer_get, List.lookup]

example :
    (run_lbo_model (fun _ => 0) 1000 (6/10) 120 (5/100) 8 5 (8/100)).map (fun t => t.1) =
      some [-400, 0, 0, 0, 0, 8 * (120 * (21/20) ^ 5)] := by
  simp [run_lbo_model, lbo_debt_schedule]
  norm_num

/-- Closed form of the projection list: `project_fcf` maps
`i ↦ fcf0·(1+g)^(i+1)` over `range n`. -/
theorem project_fcf_eq_map_range (fcf0 g : ℚ) (n : ℕ) :
    project_fcf fcf0 g n = (List.range n).map (fun i => fcf0 * (1 + g) ^ (i + 1)) := by
  unfold project_fcf
  rw [List.range'_eq_map_range, List.map_map]
  refine List.map_congr_left ?_
  intro i _
  simp [Nat.add_comm]

/-- C8: for all inputs, `calculate_fcf ebit tax_rate da capex wc` returns
`ebit*(1-tax_rate) + da - capex - wc`; in particular
`calculate_fcf 1000 0.21 100 150 50 = 690`. -/
theorem C8_calculate_fcf_formula :
    (∀ ebit tax_rate da capex wc : ℚ,
        calculate_fcf ebit tax_rate da capex wc = ebit * (1 - tax_rate) + da - capex - wc)
    ∧ calculate_fcf 1000 (21/100) 100 150 50 = 690 := by
  constructor
  · intro ebit tax_rate da capex wc
    rfl
  · norm_num [calculate_fcf]

/-- C7: `project_fcf fcf0 g n` is the length-`n` list whose `i`-th element
(0-based) is `fcf0*(1+g)^(i+1)`, i.e. `[fcf0*(1+g)^1, …, fcf0*(1+g)^n]`;
in particular `project_fcf 100 0.05 3 = [105.0, 110.25, 115.7625]`
(`110.25 = 441/4`, `115.7625 = 9261/80`). -/
theorem C7_project_fcf_list :
    ∀ (fcf0 g : ℚ) (n : ℕ),
      (project_fcf fcf0 g n).length = n
      ∧ (∀ i, i < n → (project_fcf fcf0 g n).getD i 0 = fcf0 * (1 + g) ^ (i + 1))
      ∧ project_fcf 100 (5/100) 3 = [105, 441/4, 9261/80] := by
  intro fcf0 g n
  refine ⟨by simp [project_fcf], ?_, by norm_num [project_fcf, List.range']⟩
  intro i hi
  have hlen : i < (project_fcf fcf0 g n).length := by simpa [project_fcf] using hi
  rw [List.getD_eq_getElem _ _ hlen]
  simp [project_fcf_eq_map_range, hi]

/-- C7 witness: the theorem applied at `fcf0 = 100`, `g = 5/100`, `n = 3`,
`i = 2`. -/
theorem C7_project_fcf_list_witness :
    (project_fcf 100 (5/100) 3).length = 3
    ∧ (project_fcf 100 (5/100) 3).getD 2 0 = 100 * (1 + 5/100) ^ 3 :=
  ⟨(C7_project_fcf_list 100 (5/100) 3).1,
   (C7_project_fcf_list 100 (5/100) 3).2.1 2 (by norm_num)⟩

/-- C2 (code bug): `discount_cash_flows` delegates to `npf.npv`, which
discounts the first flow at period 0, not period 1 as the docstring and the
claim state: on a cons list the head is added undiscounted, and on the
failing input `([100.0], wacc = 0.1)` the code returns `100.0` while the
claimed period-1 present value is `100/1.1`. -/
theorem C2_discount_cash_flows_period0 :
    (∀ (v wacc : ℚ) (vs : List ℚ),
        discount_cash_flows (v :: vs) wacc = v + npv_from wacc 1 vs)
    ∧ discount_cash_flows [100] (1/10) = 100
    ∧ (100 : ℚ) ≠ 100 / (1 + 1/10) := by
  refine ⟨?_, by norm_num [discount_cash_flows, npv_from], by norm_num⟩
  intro v wacc vs
  simp [discount_cash_flows, npv_from]

/-- C4 (amended): `calculate_terminal_value last g wacc` returns
`last*(1+g)/(wacc-g)` whenever `wacc ≠ g` — in particular whenever
`wacc > g`, giving `1700` at `(100, 0.02, 0.08)` — and raises
(`ZeroDivisionError`) exactly when `wacc = g`; for `wacc < g` it returns
the degenerate value without failing. -/
theorem C4_terminal_value_amended :
    ∀ last_fcf g_perp wacc : ℚ,
      (wacc ≠ g_perp →
        calculate_terminal_value last_fcf g_perp wacc
          = some (last_fcf * (1 + g_perp) / (wacc - g_perp)))
      ∧ (wacc = g_perp → calculate_terminal_value last_fcf g_perp wacc = none)
      ∧ calculate_terminal_value 100 (2/100) (8/100) = some 1700 := by
  intro last_fcf g_perp wacc
  refine ⟨?_, ?_, by norm_num [calculate_terminal_value, pydiv]⟩
  · intro h
    simp [calculate_terminal_value, pydiv, sub_eq_zero, h]
  · intro h
    subst h
    simp [calculate_terminal_value, pydiv]

/-- C4 witness: the amended theorem applied at `(100, 0.02, 0.08)`,
discharging `wacc ≠ g_perp`. -/
theorem C4_terminal_value_amended_witness :
    calculate_terminal_value 100 (2/100) (8/100)
      = some (100 * (1 + 2/100) / (8/100 - 2/100)) :=
  (C4_terminal_value_amended 100 (2/100) (8/100)).1 (by norm_num)

/-- C4 counterexample: at `last_fcf = 100`, `g_perp = 0.08`, `wacc = 0.02`
we have `wacc ≤ g_perp`, yet the call does not fail: it returns the value
`-1800`, refuting "undefined/fails whenever wacc ≤ perpetual_growth_rate". -/
theorem C4_terminal_value_cex :
    (2/100 : ℚ) ≤ 8/100
    ∧ calculate_terminal_value 100 (8/100) (2/100) = some (-1800) := by
  constructor
  · norm_num
  · norm_num [calculate_terminal_value, pydiv]

/-- The final outstanding balance of the repayment loop: `steps` constant
principal payments subtracted from the opening balance.  It does not depend
on the interest rate. -/
theorem lbo_debt_schedule_snd (rate annual : ℚ) :
    ∀ (steps : ℕ) (outstanding : ℚ) (year : ℕ),
      (lbo_debt_schedule outstanding rate annual year steps).2
        = outstanding - steps * annual := by
  intro steps
  induction steps with
  | zero =>
    intro o y
    simp [lbo_debt_schedule]
  | succ k ih =>
    intro o y
    simp only [lbo_debt_schedule, ih]
    push_cast
    ring

/-- Every `remaining_debt` stored by the repayment loop is `max _ 0`, hence
nonnegative. -/
theorem lbo_debt_schedule_nonneg (rate annual : ℚ) :
    ∀ (steps : ℕ) (outstanding : ℚ) (year : ℕ) (d : DebtRecord),
      d ∈ (lbo_debt_schedule outstanding rate annual year steps).1 →
        0 ≤ d.remaining_debt := by
  intro steps
  induction steps with
  | zero =>
    intro o y d hd
    simp [lbo_debt_schedule] at hd
  | succ k ih =>
    intro o y d hd
    simp only [lbo_debt_schedule, List.mem_cons] at hd
    rcases hd with h | h
    · subst h
      exact le_max_right _ _
    · exact ih _ _ d h

/-- C6: two calls to `run_lbo_model` that differ only in `interest_rate`
return the same equity cash-flow vector, IRR and exit equity value — the
debt schedule's interest column never feeds the outputs. -/
theorem C6_lbo_interest_rate_independence :
    ∀ (irr : List ℚ → ℚ) (purchase_price debt_ratio initial_ebitda
        ebitda_growth_rate exit_multiple : ℚ) (years : ℕ) (r1 r2 : ℚ),
      run_lbo_model irr purchase_price debt_ratio initial_ebitda
          ebitda_growth_rate exit_multiple years r1
        = run_lbo_model irr purchase_price debt_ratio initial_ebitda
          ebitda_growth_rate exit_multiple years r2 := by
  intro irr pp dr ie g m years r1 r2
  unfold run_lbo_model
  by_cases h : years = 0
  · simp [h]
  · simp [h, lbo_debt_schedule_snd]

/-- C10: for `years ≥ 1`, every schedule record has a nonnegative
`remaining_debt`, the balance after the final straight-line payment is
exactly `0` in exact arithmetic, and hence the exit equity value is the
full exit enterprise value `exit_multiple*initial_ebitda*(1+g)^years` with
nothing subtracted. -/
theorem C10_lbo_schedule_invariants :
    ∀ (irr : List ℚ → ℚ) (purchase_price debt_ratio initial_ebitda
        ebitda_growth_rate exit_multiple interest_rate : ℚ) (years : ℕ),
      1 ≤ years →
      (∀ d ∈ (lbo_debt_schedule (purchase_price * debt_ratio) interest_rate
          (purchase_price * debt_ratio / (years : ℚ)) 1 years).1,
          0 ≤ d.remaining_debt)
      ∧ (lbo_debt_schedule (purchase_price * debt_ratio) interest_rate
          (purchase_price * debt_ratio / (years : ℚ)) 1 years).2 = 0
      ∧ (run_lbo_model irr purchase_price debt_ratio initial_ebitda
          ebitda_growth_rate exit_multiple years interest_rate).map (fun t => t.2.2)
        = some (exit_multiple * initial_ebitda * (1 + ebitda_growth_rate) ^ years) := by
  intro irr pp dr ie g m rate years hy
  have hy0 : years ≠ 0 := by omega
  have hyQ : (years : ℚ) ≠ 0 := Nat.cast_ne_zero.mpr hy0
  have hsnd : (lbo_debt_schedule (pp * dr) rate (pp * dr / (years : ℚ)) 1 years).2 = 0 := by
    rw [lbo_debt_schedule_snd]
    field_simp
  refine ⟨fun d hd => lbo_debt_schedule_nonneg _ _ _ _ _ d hd, hsnd, ?_⟩
  unfold run_lbo_model
  simp [hy0, hsnd]
  ring

/-- C10 witness: the theorem applied at the documented example inputs
(`purchase_price = 1000`, `debt_ratio = 0.6`, `years = 5`). -/
theorem C10_lbo_schedule_invariants_witness :
    (lbo_debt_schedule (1000 * (6/10)) (8/100) (1000 * (6/10) / ((5 : ℕ) : ℚ)) 1 5).2 = 0
    ∧ (run_lbo_model (fun _ => 0) 1000 (6/10) 120 (5/100) 8 5 (8/100)).map (fun t => t.2.2)
      = some (8 * 120 * (1 + 5/100) ^ 5) :=
  ⟨(C10_lbo_schedule_invariants (fun _ => 0) 1000 (6/10) 120 (5/100) 8 (8/100) 5
      (by norm_num)).2.1,
   (C10_lbo_schedule_invariants (fun _ => 0) 1000 (6/10) 120 (5/100) 8 (8/100) 5
      (by norm_num)).2.2⟩

/-- C1 (amended): for `years ≥ 1` the returned equity cash-flow vector has
length `years + 1` (time 0 through year `years`), its first element is
`-purchase_price*(1-debt_ratio)`, every interior element (positions `1` to
`years - 1`) is zero, and its last element is the returned
`exit_equity_value`. -/
theorem C1_lbo_cash_flows_amended :
    ∀ (irr : List ℚ → ℚ) (purchase_price debt_ratio initial_ebitda
        ebitda_growth_rate exit_multiple interest_rate : ℚ) (years : ℕ),
      1 ≤ years →
      (run_lbo_model irr purchase_price debt_ratio initial_ebitda
          ebitda_growth_rate exit_multiple years interest_rate).map (fun t => t.1.length)
        = some (years + 1)
      ∧ (run_lbo_model irr purchase_price debt_ratio initial_ebitda
          ebitda_growth_rate exit_multiple years interest_rate).map (fun t => t.1.head?)
        = some (some (-(purchase_price * (1 - debt_ratio))))
      ∧ (∀ j, 1 ≤ j → j < years →
          (run_lbo_model irr purchase_price debt_ratio initial_ebitda
              ebitda_growth_rate exit_multiple years interest_rate).map (fun t => t.1.getD j 0)
            = some 0)
      ∧ (run_lbo_model irr purchase_price debt_ratio initial_ebitda
          ebitda_growth_rate exit_multiple years interest_rate).map (fun t => t.1.getLast?)
        = (run_lbo_model irr purchase_price debt_ratio initial_ebitda
          ebitda_growth_rate exit_multiple years interest_rate).map (fun t => some t.2.2) := by
  intro irr pp dr ie g m rate years hy
  have hy0 : years ≠ 0 := by omega
  refine ⟨?_, ?_, ?_, ?_⟩
  · unfold run_lbo_model
    simp [hy0]
    omega
  · unfold run_lbo_model
    simp [hy0]
  · intro j hj1 hj2
    obtain ⟨j', rfl⟩ : ∃ j', j = j' + 1 := ⟨j - 1, by omega⟩
    unfold run_lbo_model
    simp only [hy0, if_false, Option.map_some]
    have hj' : j' < years - 1 := by omega
    have hlt : j' < (List.replicate (years - 1) (0 : ℚ)).length := by simpa using hj'
    simp [List.getD_cons_succ, List.getD_eq_getElem?_getD, List.getElem?_append,
      hlt, List.getElem?_replicate, hj']
  · unfold run_lbo_model
    simp only [hy0, if_false, Option.map_some']
    rw [← List.cons_append, List.getLast?_concat]

/-- C1 witness: the amended theorem applied at the documented example
inputs (`years = 5`), with interior position `j = 2`. -/
theorem C1_lbo_cash_flows_amended_witness :
    (run_lbo_model (fun _ => 0) 1000 (6/10) 120 (5/100) 8 5 (8/100)).map (fun t => t.1.length)
      = some (5 + 1)
    ∧ (run_lbo_model (fun _ => 0) 1000 (6/10) 120 (5/100) 8 5 (8/100)).map (fun t => t.1.getD 2 0)
      = some 0 :=
  ⟨(C1_lbo_cash_flows_amended (fun _ => 0) 1000 (6/10) 120 (5/100) 8 (8/100) 5 (by norm_num)).1,
   (C1_lbo_cash_flows_amended (fun _ => 0) 1000 (6/10) 120 (5/100) 8 (8/100) 5
      (by norm_num)).2.2.1 2 (by norm_num) (by norm_num)⟩

/-- C1 counterexample: at the documented example inputs with `years = 5`
the equity cash-flow vector has length `6`, not `years = 5` — the vector
carries `years + 1` entries (time 0 plus one per projection year). -/
theorem C1_lbo_cash_flows_cex :
    (run_lbo_model (fun _ => 0) 1000 (6/10) 120 (5/100) 8 5 (8/100)).map (fun t => t.1.length)
      = some 6
    ∧ (6 : ℕ) ≠ 5 := by
  constructor
  · simp [run_lbo_model]
  · norm_num

/-- The enumerate-style discounting loop equals a `mapM` over the
projection zipped with its 1-based year indices. -/
theorem discount_projected_eq_mapM (wacc : ℚ) :
    ∀ (l : List ℚ) (k : ℕ),
      discount_projected wacc k l
        = (l.zip (List.range' (k + 1) l.length)).mapM
            (fun p => pydiv p.1 ((1 + wacc) ^ p.2)) := by
  intro l
  induction l with
  | nil =>
    intro k
    rfl
  | cons f rest ih =>
    intro k
    have hr : List.range' (k + 1) (rest.length + 1)
        = (k + 1) :: List.range' (k + 2) rest.length := by
      have := List.range'_succ (k + 1) rest.length 1
      simpa using this
    rw [show (f :: rest).length = rest.length + 1 from rfl, hr]
    simp only [List.zip_cons_cons, List.mapM_cons, discount_projected, ih (k + 1)]
    cases pydiv f ((1 + wacc) ^ (k + 1)) with
    | none => simp
    | some d =>
      cases (rest.zip (List.range' (k + 2) rest.length)).mapM
          (fun p => pydiv p.1 ((1 + wacc) ^ p.2)) <;> simp

/-- C3: under `projection_years ≥ 1` and `wacc ≠ perpetual_growth_rate`,
`calculate_dcf` returns exactly the triple obtained by applying the
section-4.1 formulas in sequence (`dcf_spec`); the documented example
inputs satisfy the hypotheses, see the witness. -/
theorem C3_calculate_dcf_refines_spec :
    ∀ (ebit tax_rate da capex wc growth_rate : ℚ) (n : ℕ) (g_perp wacc : ℚ),
      1 ≤ n → wacc ≠ g_perp →
      calculate_dcf ebit tax_rate da capex wc growth_rate n g_perp wacc
        = dcf_spec ebit tax_rate da capex wc growth_rate n g_perp wacc := by
  intro ebit tax_rate da capex wc g n g_perp wacc hn hw
  simp only [calculate_dcf, dcf_spec, calculate_fcf, calculate_terminal_value,
    project_fcf_eq_map_range, discount_projected_eq_mapM, List.length_map,
    List.length_range, Nat.zero_add]

/-- C3 witness: the theorem applied at the documented example inputs
(ebit 1000, tax 0.21, da 100, capex 150, wc 50, g 0.05, 5 years,
g_perp 0.02, wacc 0.08). -/
theorem C3_calculate_dcf_refines_spec_witness :
    (1 : ℕ) ≤ 5 ∧ ((8/100 : ℚ) ≠ 2/100)
    ∧ calculate_dcf 1000 (21/100) 100 150 50 (5/100) 5 (2/100) (8/100)
        = dcf_spec 1000 (21/100) 100 150 50 (5/100) 5 (2/100) (8/100) :=
  ⟨by norm_num, by norm_num,
   C3_calculate_dcf_refines_spec 1000 (21/100) 100 150 50 (5/100) 5 (2/100) (8/100)
     (by norm_num) (by norm_num)⟩

/-- When `1 + wacc ≠ 0` every division in the discounting loop is defined,
so the loop succeeds. -/
theorem discount_projected_isSome (wacc : ℚ) (hw : 1 + wacc ≠ 0) :
    ∀ (l : List ℚ) (k : ℕ), ∃ ds, discount_projected wacc k l = some ds := by
  intro l
  induction l with
  | nil =>
    intro k
    exact ⟨[], rfl⟩
  | cons f rest ih =>
    intro k
    obtain ⟨ds, hds⟩ := ih (k + 1)
    have hpow : (1 + wacc) ^ (k + 1) ≠ 0 := pow_ne_zero _ hw
    exact ⟨f / (1 + wacc) ^ (k + 1) :: ds, by simp [discount_projected, pydiv, hpow, hds]⟩

/-- C9 (amended): `calculate_dcf` fails at `projection_years = 0` (the
`fcf_projections[-1]` access on the empty projection), the empty-list
branch is unreachable for `projection_years ≥ 1`, and the function is total
on `projection_years ≥ 1` given `wacc ≠ perpetual_growth_rate` and
additionally `1 + wacc ≠ 0` (at `wacc = -1` the discounting divisions raise
`ZeroDivisionError`). -/
theorem C9_calculate_dcf_totality_amended :
    ∀ (ebit tax_rate da capex wc growth_rate : ℚ) (n : ℕ) (g_perp wacc : ℚ),
      (n = 0 → calculate_dcf ebit tax_rate da capex wc growth_rate n g_perp wacc = none)
      ∧ (1 ≤ n → wacc ≠ g_perp → 1 + wacc ≠ 0 →
          (calculate_dcf ebit tax_rate da capex wc growth_rate n g_perp wacc).isSome
            = true) := by
  intro ebit tax_rate da capex wc g n g_perp wacc
  constructor
  · intro h
    subst h
    simp [calculate_dcf, project_fcf]
  · intro hn hwg hw1
    obtain ⟨last, hlast⟩ :
        ∃ y, (project_fcf (calculate_fcf ebit tax_rate da capex wc) g n).getLast? = some y := by
      have hne : project_fcf (calculate_fcf ebit tax_rate da capex wc) g n ≠ [] := by
        have hlen : (project_fcf (calculate_fcf ebit tax_rate da capex wc) g n).length = n := by
          simp [project_fcf]
        intro hnil
        rw [hnil] at hlen
        simp at hlen
        omega
      exact Option.isSome_iff_exists.mp (List.getLast?_isSome.mpr hne)
    have hterm : calculate_terminal_value last g_perp wacc
        = some (last * (1 + g_perp) / (wacc - g_perp)) := by
      have hsub : wacc - g_perp ≠ 0 := sub_ne_zero.mpr hwg
      simp [calculate_terminal_value, pydiv, hsub]
    obtain ⟨ds, hds⟩ :=
      discount_projected_isSome wacc hw1 (project_fcf (calculate_fcf ebit tax_rate da capex wc) g n) 0
    have hfin : (1 + wacc) ^ (n + 1) ≠ 0 := pow_ne_zero _ hw1
    simp [calculate_dcf, hlast, hterm, hds, pydiv, hfin]

/-- C9 witness: the amended theorem applied at `n = 0` (all-zero inputs)
and at the documented example inputs with `n = 5`. -/
theorem C9_calculate_dcf_totality_amended_witness :
    calculate_dcf 0 0 0 0 0 0 0 0 0 = none
    ∧ (calculate_dcf 1000 (21/100) 100 150 50 (5/100) 5 (2/100) (8/100)).isSome = true :=
  ⟨(C9_calculate_dcf_totality_amended 0 0 0 0 0 0 0 0 0).1 rfl,
   (C9_calculate_dcf_totality_amended 1000 (21/100) 100 150 50 (5/100) 5 (2/100) (8/100)).2
     (by norm_num) (by norm_num) (by norm_num)⟩

/-- C9 counterexample: at the documented example inputs with
`wacc = -1 ≠ perpetual_growth_rate` and `projection_years = 5 ≥ 1` the
function still fails (`ZeroDivisionError` in the discounting step), so it
is not total on `projection_years ≥ 1` given only
`wacc ≠ perpetual_growth_rate`. -/
theorem C9_calculate_dcf_totality_cex :
    (1 : ℕ) ≤ 5 ∧ ((-1 : ℚ) ≠ 2/100)
    ∧ calculate_dcf 1000 (21/100) 100 150 50 (5/100) 5 (2/100) (-1) = none := by
  refine ⟨by norm_num, by norm_num, ?_⟩
  have h1 : (1 + (-1 : ℚ)) = 0 := by norm_num
  simp [calculate_dcf, project_fcf, List.range', calculate_terminal_value, pydiv,
    discount_projected, h1]
  norm_num

/-- C5: `compute_median_multiple` first drops peers whose entry for the
metric is missing or null; on an empty remainder it returns the `None`
sentinel; otherwise, for the sorted arrangement `s` of the remaining
values, it returns the exact middle element when the count is odd and the
mean of the two central elements when the count is even. -/
theorem C5_compute_median_multiple_median :
    ∀ (peers : List Peer) (metric : String) (s : List ℚ),
      (peers.filterMap (fun peer => peer_get peer metric)).Perm s →
      s.Sorted (· ≤ ·) →
        (s = [] → compute_median_multiple peers metric = none)
        ∧ (s.length % 2 = 1 →
            compute_median_multiple peers metric = some (s.getD (s.length / 2) 0))
        ∧ (s.length % 2 = 0 → s ≠ [] →
            compute_median_multiple peers metric
              = some ((s.getD (s.length / 2 - 1) 0 + s.getD (s.length / 2) 0) / 2)) := by
  intro peers metric s hperm hsort
  have hsorteq :
      (peers.filterMap (fun peer => peer_get peer metric)).insertionSort (· ≤ ·) = s := by
    refine List.eq_of_perm_of_sorted ?_ (List.sorted_insertionSort _ _) hsort
    exact (List.perm_insertionSort _ _).trans hperm
  refine ⟨?_, ?_, ?_⟩
  · intro hnil
    have hmnil : peers.filterMap (fun peer => peer_get peer metric) = [] := by
      rw [hnil] at hperm
      exact hperm.eq_nil
    simp [compute_median_multiple, hmnil]
  · intro hodd
    have hmne : peers.filterMap (fun peer => peer_get peer metric) ≠ [] := by
      intro hnil
      rw [hnil] at hperm
      have : s = [] := hperm.symm.eq_nil
      rw [this] at hodd
      simp at hodd
    have hne0 : ¬ s.length % 2 = 0 := by omega
    simp [compute_median_multiple, hmne, hsorteq, hne0]
  · intro heven hne
    have hmne : peers.filterMap (fun peer => peer_get peer metric) ≠ [] := by
      intro hnil
      rw [hnil] at hperm
      exact hne hperm.symm.eq_nil
    simp [compute_median_multiple, hmne, hsorteq, heven]

/-- C5 witness: the theorem applied to three peers carrying 16, 18, 19 for
the metric, with sorted arrangement `[16, 18, 19]` (odd count, middle
element 18). -/
theorem C5_compute_median_multiple_median_witness :
    compute_median_multiple [[("EV", some 16)], [("EV", some 18)], [("EV", some 19)]] ("EV")
      = some 18 := by
  have hfm : List.filterMap (fun peer => peer_get peer ("EV"))
      [[("EV", some 16)], [("EV", some 18)], [("EV", some 19)]] = [16, 18, 19] := by
    simp [peer_get, List.lookup]
  have hperm : (List.filterMap (fun peer => peer_get peer ("EV"))
      [[("EV", some 16)], [("EV", some 18)], [("EV", some 19)]]).Perm ([16, 18, 19] : List ℚ) := by
    rw [hfm]
  have hsort : ([16, 18, 19] : List ℚ).Sorted (· ≤ ·) := by
    simp [List.sorted_cons]
    norm_num
  have h := (C5_compute_median_multiple_median _ _ ([16, 18, 19] : List ℚ) hperm hsort).2.1
    (by norm_num)
  simpa using h

end EquityValuator
